import Mathlib

/-
Verification development for the locksmith JWT secret-rotation engine.

The Go sources are shallowly embedded: the rotation engine state becomes an
explicit record, each operation becomes a pure Lean function over that record,
and the effectful collaborators (secret generator, durable storage) become
explicit outcome parameters threaded through the operation, so that each code
path of the Go function appears as a branch of the Lean function.  Go
`time.Time` values are modelled as `Int` instants (the two `time.Now()` calls
inside one rotation are modelled as a single instant `now`), Go `[]byte` as
`List Nat` with byte-range entries, and Go errors as inductive error types
mirroring the distinct error construction sites of the source.
-/

namespace Locksmith

/-- Bytes of a secret value, modelling Go `[]byte` (`SecretValue`); each entry
is a byte in the range 0..255. -/
abbrev Bytes := List Nat

/-- The lowercase hex alphabet of Go `encoding/hex` (its `hextable`). -/
def hexTable : List Char :=
  "0123456789abcdef".data

/-- Hex digit of a nibble.  The `% 16` keeps the function total on `Nat`; for
nibble inputs (the only ones produced from byte-range values) it is a no-op. -/
def hexDigit (n : Nat) : Char :=
  hexTable.getD (n % 16) '0'

/-- Character sequence of Go `hex.EncodeToString`: each byte becomes its high
nibble (`v >> 4`, here `b / 16`) then its low nibble (`v & 0x0f`, here `b % 16`
performed inside `hexDigit`), drawn from the lowercase alphabet. -/
def hexChars (bs : Bytes) : List Char :=
  bs.foldr (fun b acc => hexDigit (b / 16) :: hexDigit b :: acc) []

/-- Go `hex.EncodeToString` from `encoding/hex`. -/
def hexEncodeBytes (bs : Bytes) : String :=
  String.mk (hexChars bs)

/-- One mixing step of the digest stand-in below. -/
def mixByte (h b : Nat) : Nat :=
  (h * 131 + b + 17) % 4294967296

/-- Produce `n` output bytes from a running digest state. -/
def squeezeBytes : Nat → Nat → Bytes
  | 0, _ => []
  | n + 1, h => (h % 256) :: squeezeBytes n (mixByte h 97)

/-- Model of the external HMAC-SHA256 primitive (Go `crypto/hmac` over
`crypto/sha256`, library code outside this repository): a deterministic
executable keyed digest producing 32 bytes.  The development relies only on the
properties the real primitive shares with this stand-in — it is a pure
deterministic function of (key, message) with a fixed-length output, and a
verifier recomputing it over the same inputs obtains the same tag. -/
def hmacSHA256 (key msg : Bytes) : Bytes :=
  squeezeBytes 32 ((key ++ 54 :: msg).foldl mixByte 5381)

/-- Go `generateSecretId` (jwt-rotation core): HMAC-SHA256 with the empty key
over the secret bytes, hex-encoded, truncated to the first 12 characters. -/
def generateSecretId (secret : Bytes) : String :=
  String.mk ((hexChars (hmacSHA256 [] secret)).take 12)

/-- Go `Secret` (jwt-rotation core): ID, Value, CreatedAt, Active. -/
structure Secret where
  id : String
  value : Bytes
  createdAt : Int
  active : Bool
  deriving DecidableEq

/-- Go `storage.StoredSecret`: the persisted record shape. -/
structure StoredSecret where
  id : String
  value : Bytes
  createdAt : Int
  deriving DecidableEq

/-- The mutable working set of Go `RotationManager`: `activeSecret` and
`previousSecrets`.  The policy, storage, generator and notifier fields carry no
working-set state and enter the model as parameters of the operations. -/
structure ManagerState where
  activeSecret : Option Secret
  previousSecrets : List Secret
  deriving DecidableEq

/-- Errors of `generateAndStoreSecret`, mirroring its two wrapping sites:
`failed to generate secret value: ...` and `failed to store new secret: ...`,
each carrying the underlying collaborator error. -/
inductive RotateError where
  | generateFailed (msg : String)
  | storeFailed (msg : String)
  deriving DecidableEq

/-- Go `RotationManager.generateAndStoreSecret`: obtain a value from the
generator (outcome `genResult`), build the secret with its derived ID, the
current instant and `Active = true`, then persist it (outcome `storeResult`);
either failure aborts with the corresponding wrapped error. -/
def generateAndStoreSecret (genResult : Except String Bytes)
    (storeResult : Except String Unit) (now : Int) : Except RotateError Secret :=
  match genResult with
  | .error e => .error (.generateFailed e)
  | .ok value =>
    match storeResult with
    | .error e => .error (.storeFailed e)
    | .ok _ =>
      .ok { id := generateSecretId value, value := value, createdAt := now, active := true }

/-- Go `RotationManager.cleanupOldSecrets`: a no-op when `GracePeriod <= 0`;
otherwise keep exactly the previous secrets whose `CreatedAt` is strictly after
`now - GracePeriod` (Go `CreatedAt.After(cutOffTime)` is a strict comparison). -/
def cleanupOldSecrets (gracePeriod now : Int) (previousSecrets : List Secret) : List Secret :=
  if gracePeriod ≤ 0 then previousSecrets
  else previousSecrets.filter (fun s => decide (now - gracePeriod < s.createdAt))

/-- Go `RotationManager.RotateSecret`: run `generateAndStoreSecret`; on failure
return the error with the working set untouched; on success, if there is a
current active secret, demote it (`Active = false`), prepend it to the previous
list and run the grace-period cleanup, then promote the new secret to active. -/
def rotateSecret (st : ManagerState) (gracePeriod now : Int)
    (genResult : Except String Bytes) (storeResult : Except String Unit) :
    Except RotateError Secret × ManagerState :=
  match generateAndStoreSecret genResult storeResult now with
  | .error e => (.error e, st)
  | .ok newSecret =>
    match st.activeSecret with
    | some a =>
      let demoted : Secret := { a with active := false }
      let cleaned := cleanupOldSecrets gracePeriod now (demoted :: st.previousSecrets)
      (.ok newSecret, { activeSecret := some newSecret, previousSecrets := cleaned })
    | none =>
      (.ok newSecret, { activeSecret := some newSecret, previousSecrets := st.previousSecrets })

/-- Go `RotationManager.GetSecrets`: the active secret (when present) followed
by the previous secrets in retirement order. -/
def getSecrets (st : ManagerState) : List Secret :=
  (match st.activeSecret with
   | some a => [a]
   | none => []) ++ st.previousSecrets

/-- Loop body of the `NewRotationManager` reconstruction loop over the records
returned by `store.GetAll`: each record becomes a `Secret` marked inactive; the
first record encountered (when no active secret is set yet) is marked active,
every later record is appended to the previous list. -/
def initStep (st : ManagerState) (s : StoredSecret) : ManagerState :=
  let secret : Secret := { id := s.id, value := s.value, createdAt := s.createdAt, active := false }
  match st.activeSecret with
  | none => { st with activeSecret := some { secret with active := true } }
  | some _ => { st with previousSecrets := st.previousSecrets ++ [secret] }

/-- The state `NewRotationManager` reconstructs from a non-empty enumeration of
stored records (the branch taken when `store.GetAll` succeeds with at least one
record): the reconstruction loop folded over the records in enumeration order,
starting from the empty working set. -/
def initFromRecords (records : List StoredSecret) : ManagerState :=
  records.foldl initStep { activeSecret := none, previousSecrets := [] }

/-- Go `JWTManager.ExportActiveSecretHex`: empty string when there is no active
secret, otherwise the hex encoding of the active secret's value. -/
def exportActiveSecretHex (st : ManagerState) : String :=
  match st.activeSecret with
  | none => ""
  | some a => hexEncodeBytes a.value

/-- JWT signing algorithms registered by the `golang-jwt/jwt` library that are
relevant here; `HS256`, `HS384` and `HS512` are the `SigningMethodHMAC`
instances. -/
inductive Alg where
  | HS256
  | HS384
  | HS512
  | RS256
  | ES256
  | EdDSA
  deriving DecidableEq

/-- Whether the algorithm is a `SigningMethodHMAC` instance, the type switch of
the keyfunc in Go `ValidateToken`. -/
def Alg.isHMAC : Alg → Bool
  | .HS256 | .HS384 | .HS512 => true
  | _ => false

/-- Wire name of the algorithm, the `alg` header value. -/
def algName : Alg → String
  | .HS256 => "HS256"
  | .HS384 => "HS384"
  | .HS512 => "HS512"
  | .RS256 => "RS256"
  | .ES256 => "ES256"
  | .EdDSA => "EdDSA"

/-- A structurally well-formed JWT as the library parses it: the declared
algorithm, the optional `kid` header (absent when the header has no string
`kid`), the claim payload (opaque to the engine, modelled as its serialized
form), and the signature bytes. -/
structure TokenData where
  alg : Alg
  kid : Option String
  claims : String
  sig : Bytes
  deriving DecidableEq

/-- Outcome of the library's structural parse of a token string: either the
string is not a well-formed compact JWT, or it parses to token data. -/
inductive ParsedToken where
  | malformed
  | token (t : TokenData)
  deriving DecidableEq

/-- The single error site of Go `SignToken`:
`no active secret available to sign token`. -/
inductive SignError where
  | noActiveSecret
  deriving DecidableEq

/-- Distinct error outcomes of Go `ValidateToken`: the library's malformed-token
error, the keyfunc error `unexpected signing method: ...`, the keyfunc error
`token validation failed: secret with kid ... not found` (carrying the kid,
which is the empty string when the header has no string `kid`), and the
library's signature verification failure. -/
inductive ValidationError where
  | malformedToken
  | unsupportedAlgorithm (alg : Alg)
  | keyNotFound (kid : String)
  | signatureInvalid
  deriving DecidableEq

/-- UTF-8-agnostic byte view of a string used for MAC input (the tokens here
are ASCII). -/
def stringBytes (s : String) : Bytes :=
  s.data.map Char.toNat

/-- The signing input of the compact JWT layout: the protected header (here its
two relevant fields) and the payload, period-delimited, as fed to the MAC by the
library both when signing and when verifying. -/
def encodeSigningInput (alg : Alg) (kid : Option String) (claims : String) : Bytes :=
  stringBytes (algName alg) ++ (46 :: stringBytes (kid.getD "")) ++ (46 :: stringBytes claims)

/-- Go `JWTManager.SignToken`: fail when there is no active secret; otherwise
produce an HS256 token whose `kid` header is the active secret's ID and whose
signature is the MAC of the signing input under the active secret's value. -/
def signToken (st : ManagerState) (claims : String) : Except SignError TokenData :=
  match st.activeSecret with
  | none => .error .noActiveSecret
  | some a =>
    .ok { alg := .HS256, kid := some a.id, claims := claims,
          sig := hmacSHA256 a.value (encodeSigningInput .HS256 (some a.id) claims) }

/-- The lookup loop of the keyfunc in Go `ValidateToken`: scan `GetSecrets()`
(active first, then previous) and return the first secret whose ID equals the
kid. -/
def findSecretByKid (secrets : List Secret) (kid : String) : Option Secret :=
  secrets.find? (fun s => s.id == kid)

/-- Go `JWTManager.ValidateToken` over a parsed token: a string that does not
parse fails with the library's malformed error; otherwise the keyfunc first
rejects any non-HMAC method, then extracts the `kid` header (left as the empty
string by the failed type assertion when absent) and scans the working set; a
found secret's value verifies the signature (recomputing the MAC over the
token's own header and payload), a missing `kid` or an unmatched one falls
through to the kid-not-found error. -/
def validateToken (st : ManagerState) (input : ParsedToken) : Except ValidationError TokenData :=
  match input with
  | .malformed => .error .malformedToken
  | .token t =>
    if t.alg.isHMAC then
      match t.kid with
      | some k =>
        match findSecretByKid (getSecrets st) k with
        | some s =>
          if t.sig = hmacSHA256 s.value (encodeSigningInput t.alg t.kid t.claims) then
            .ok t
          else
            .error .signatureInvalid
        | none => .error (.keyNotFound k)
      | none => .error (.keyNotFound "")
    else
      .error (.unsupportedAlgorithm t.alg)

/-- Predicate written from the spec's words, for comparison with
`initFromRecords` (refinement check): the constructed engine has an active
secret and its `createdAt` is latest among all enumerated records. -/
def activeHasLatestCreatedAt (records : List StoredSecret) (st : ManagerState) : Prop :=
  ∃ a ∈ st.activeSecret.toList, ∀ r ∈ records, r.createdAt ≤ a.createdAt

instance (records : List StoredSecret) (st : ManagerState) :
    Decidable (activeHasLatestCreatedAt records st) :=
  inferInstanceAs (Decidable (∃ a ∈ st.activeSecret.toList, ∀ r ∈ records, r.createdAt ≤ a.createdAt))

/-- Concrete pre-rotation working set used to examine rotation corner cases: an
active secret created at instant 0 and one previous secret created at instant
95, each carrying the ID derived from its own value.  It is exactly the state
`initFromRecords` reconstructs from the corresponding two stored records. -/
def c4PreState : ManagerState :=
  ⟨some ⟨generateSecretId [1], [1], 0, true⟩, [⟨generateSecretId [2], [2], 95, false⟩]⟩

/-- Outcome of rotating `c4PreState` at instant 100 with grace period 10, the
generator having produced the bytes `[2]` again. -/
def c4Post : Except RotateError Secret × ManagerState :=
  rotateSecret c4PreState 10 100 (.ok [2]) (.ok ())

/- ### Supporting lemmas -/

lemma foldl_initStep_some (l : List StoredSecret) :
    ∀ (a : Secret) (p : List Secret),
      List.foldl initStep ⟨some a, p⟩ l =
        ⟨some a, p ++ l.map (fun s => ⟨s.id, s.value, s.createdAt, false⟩)⟩ := by
  induction l with
  | nil => intro a p; simp
  | cons s t ih =>
    intro a p
    have h1 : initStep ⟨some a, p⟩ s =
        ⟨some a, p ++ [⟨s.id, s.value, s.createdAt, false⟩]⟩ := rfl
    simp only [List.foldl_cons, h1, ih, List.map_cons]
    simp [List.append_assoc]

lemma mem_of_mem_cleanup {g now : Int} {l : List Secret} {s : Secret}
    (h : s ∈ cleanupOldSecrets g now l) : s ∈ l := by
  unfold cleanupOldSecrets at h
  split at h
  · exact h
  · exact List.mem_of_mem_filter h

lemma rotateSecret_ok_of_active (st : ManagerState) (a : Secret) (g now : Int) (v : Bytes)
    (hactive : st.activeSecret = some a) :
    rotateSecret st g now (.ok v) (.ok ()) =
      (.ok ⟨generateSecretId v, v, now, true⟩,
       ⟨some ⟨generateSecretId v, v, now, true⟩,
        cleanupOldSecrets g now ({ a with active := false } :: st.previousSecrets)⟩) := by
  simp [rotateSecret, generateAndStoreSecret, hactive]

lemma rotateSecret_ok_active_isSome (st : ManagerState) (g now : Int) (v : Bytes) :
    ((rotateSecret st g now (.ok v) (.ok ())).2).activeSecret =
      some ⟨generateSecretId v, v, now, true⟩ := by
  obtain ⟨act, prev⟩ := st
  cases act <;> rfl

/- ### Claim theorems -/

/-- C1: if the durable-store write fails during `RotateSecret`, the call
returns the storage error (wrapped by the `failed to store new secret` site)
and the working set — active secret and previous list — is exactly what it was
before the call; no partial promotion occurs. -/
theorem C1_store_failure_leaves_state_unchanged (st : ManagerState)
    (gracePeriod now : Int) (v : Bytes) (e : String) :
    rotateSecret st gracePeriod now (.ok v) (.error e) =
      (.error (.storeFailed e), st) := rfl

/-- Witness for C1 on a concrete working set and a concrete storage error. -/
theorem C1_witness :
    rotateSecret ⟨some ⟨"k1", [5], 0, true⟩, []⟩ 10 100 (.ok [3]) (.error "boom") =
      (.error (.storeFailed "boom"), ⟨some ⟨"k1", [5], 0, true⟩, []⟩) :=
  C1_store_failure_leaves_state_unchanged ⟨some ⟨"k1", [5], 0, true⟩, []⟩ 10 100 [3] "boom"

/-- C2 counterexample: `NewRotationManager` does not pick the record with the
latest `createdAt` as active.  For the enumeration whose first record was
created at instant 0 and whose second record was created at instant 1, the
constructed engine's active secret is the first record, not the one with the
latest `createdAt`. -/
theorem C2_counterexample :
    ¬ activeHasLatestCreatedAt
        [⟨"a", [1], 0⟩, ⟨"b", [2], 1⟩]
        (initFromRecords [⟨"a", [1], 0⟩, ⟨"b", [2], 1⟩]) := by decide

/-- C2 amended: for every non-empty enumeration of records returned by the
store at initialization, the constructed engine's active secret is the FIRST
record in enumeration order (not the record with the latest `createdAt`), and
all remaining records become previous secrets in enumeration order, marked
inactive. -/
theorem C2_amended_first_record_becomes_active (r : StoredSecret) (rs : List StoredSecret) :
    initFromRecords (r :: rs) =
      ⟨some ⟨r.id, r.value, r.createdAt, true⟩,
       rs.map (fun s => ⟨s.id, s.value, s.createdAt, false⟩)⟩ := by
  have h0 : initStep ⟨none, []⟩ r = ⟨some ⟨r.id, r.value, r.createdAt, true⟩, []⟩ := rfl
  unfold initFromRecords
  rw [List.foldl_cons, h0, foldl_initStep_some]
  simp

/-- Witness for C2 amended on a concrete two-record enumeration. -/
theorem C2_amended_witness :
    initFromRecords [⟨"a", [1], 0⟩, ⟨"b", [2], 1⟩] =
      ⟨some ⟨"a", [1], 0, true⟩, [⟨"b", [2], 1, false⟩]⟩ :=
  C2_amended_first_record_becomes_active ⟨"a", [1], 0⟩ [⟨"b", [2], 1⟩]

/-- C3: after a successful `RotateSecret` on a state with an active secret
(the shape every reachable state has), with grace period `g > 0` every secret
remaining in the previous list satisfies `now - createdAt ≤ g` and every
candidate whose age exceeds `g` is absent from the resulting list; and for
`g ≤ 0` the cleanup pass removes nothing. -/
theorem C3_grace_period_cleanup (st : ManagerState) (a : Secret) (g now : Int) (v : Bytes)
    (hactive : st.activeSecret = some a) :
    (0 < g →
      (∀ s ∈ (rotateSecret st g now (.ok v) (.ok ())).2.previousSecrets,
        now - s.createdAt ≤ g) ∧
      (∀ s ∈ ({ a with active := false } :: st.previousSecrets),
        g < now - s.createdAt →
          s ∉ (rotateSecret st g now (.ok v) (.ok ())).2.previousSecrets)) ∧
    (∀ (g2 now2 : Int) (l : List Secret), g2 ≤ 0 → cleanupOldSecrets g2 now2 l = l) := by
  constructor
  · intro hg
    rw [rotateSecret_ok_of_active st a g now v hactive]
    constructor
    · intro s hs
      unfold cleanupOldSecrets at hs
      rw [if_neg (by omega)] at hs
      rcases List.mem_filter.mp hs with ⟨-, hpred⟩
      have := of_decide_eq_true hpred
      omega
    · intro s _ hold hmem
      unfold cleanupOldSecrets at hmem
      rw [if_neg (by omega)] at hmem
      rcases List.mem_filter.mp hmem with ⟨-, hpred⟩
      have := of_decide_eq_true hpred
      omega
  · intro g2 now2 l hle
    unfold cleanupOldSecrets
    rw [if_pos hle]

/-- Witness for C3 at a concrete state: active secret created at 95, one
previous secret created at 50, rotation at instant 100 with grace period 10. -/
theorem C3_witness :
    ((0:Int) < 10 →
      (∀ s ∈ (rotateSecret ⟨some ⟨"x", [1], 95, true⟩, [⟨"y", [2], 50, false⟩]⟩
          10 100 (.ok [3]) (.ok ())).2.previousSecrets,
        (100:Int) - s.createdAt ≤ 10) ∧
      (∀ s ∈ (({ (⟨"x", [1], 95, true⟩ : Secret) with active := false }) ::
          [(⟨"y", [2], 50, false⟩ : Secret)]),
        (10:Int) < 100 - s.createdAt →
          s ∉ (rotateSecret ⟨some ⟨"x", [1], 95, true⟩, [⟨"y", [2], 50, false⟩]⟩
            10 100 (.ok [3]) (.ok ())).2.previousSecrets)) ∧
    (∀ (g2 now2 : Int) (l : List Secret), g2 ≤ 0 → cleanupOldSecrets g2 now2 l = l) :=
  C3_grace_period_cleanup ⟨some ⟨"x", [1], 95, true⟩, [⟨"y", [2], 50, false⟩]⟩
    ⟨"x", [1], 95, true⟩ 10 100 [3] rfl

/-- C4 counterexample: rotating `c4PreState` (reachable: it is exactly what
`initFromRecords` builds from the two corresponding stored records) at instant
100 with grace period 10, the generator having reproduced the bytes `[2]`,
succeeds, yet the formerly active secret does not sit at the front of the
previous list (the cleanup pass that runs after the demotion evicted it, since
its `createdAt` lies outside the grace window), and the new secret's identifier
equals the surviving previous secret's identifier. -/
theorem C4_counterexample :
    initFromRecords [⟨generateSecretId [1], [1], 0⟩, ⟨generateSecretId [2], [2], 95⟩] =
      c4PreState ∧
    c4Post.1 = .ok ⟨generateSecretId [2], [2], 100, true⟩ ∧
    c4Post.2.previousSecrets = [⟨generateSecretId [2], [2], 95, false⟩] ∧
    ¬ (c4Post.2.previousSecrets.head? = some ⟨generateSecretId [1], [1], 0, false⟩) ∧
    ¬ (∀ s ∈ c4Post.2.previousSecrets,
        (⟨generateSecretId [2], [2], 100, true⟩ : Secret).id ≠ s.id) :=
  ⟨by decide, rfl, by decide, by decide, by decide⟩

/-- C4 amended: immediately after every successful `RotateSecret` on a state
with an active secret and an all-inactive previous list (the shape every
reachable state has), exactly one secret in the working set has
`active = true` — the newly generated one — and the previous list is the
grace-period cleanup of the demoted former active secret (now `active = false`)
prepended to the old previous list; the demoted secret sits at the front of the
resulting list whenever it survives cleanup (`gracePeriod ≤ 0`, or its
`createdAt` within the grace window); and provided the identifier derived from
the generated value collides with no identifier already in the working set, the
new secret's identifier differs from every remaining previous secret's
identifier. -/
theorem C4_amended_rotation_postcondition (st : ManagerState) (a : Secret)
    (g now : Int) (v : Bytes)
    (hactive : st.activeSecret = some a)
    (hprev : ∀ s ∈ st.previousSecrets, s.active = false)
    (hfresh : ∀ s ∈ getSecrets st, generateSecretId v ≠ s.id) :
    ∃ n, rotateSecret st g now (.ok v) (.ok ()) =
        (.ok n, ⟨some n,
          cleanupOldSecrets g now ({ a with active := false } :: st.previousSecrets)⟩) ∧
      n.active = true ∧
      n.id = generateSecretId v ∧
      (∀ s ∈ (rotateSecret st g now (.ok v) (.ok ())).2.previousSecrets,
        s.active = false) ∧
      (∀ s ∈ (rotateSecret st g now (.ok v) (.ok ())).2.previousSecrets,
        n.id ≠ s.id) ∧
      ((g ≤ 0 ∨ now - g < a.createdAt) →
        (rotateSecret st g now (.ok v) (.ok ())).2.previousSecrets.head? =
          some { a with active := false }) := by
  have hrw := rotateSecret_ok_of_active st a g now v hactive
  have hamem : a ∈ getSecrets st := by
    simp [getSecrets, hactive]
  refine ⟨⟨generateSecretId v, v, now, true⟩, hrw, rfl, rfl, ?_, ?_, ?_⟩
  · intro s hs
    rw [hrw] at hs
    rcases List.mem_cons.mp (mem_of_mem_cleanup hs) with h | h
    · rw [h]
    · exact hprev s h
  · intro s hs
    rw [hrw] at hs
    rcases List.mem_cons.mp (mem_of_mem_cleanup hs) with h | h
    · rw [h]
      simpa using hfresh a hamem
    · exact hfresh s (by simp [getSecrets, hactive, Or.inr h])
  · intro hcase
    rw [hrw]
    unfold cleanupOldSecrets
    split
    · rfl
    · rename_i hneg
      have hlt : now - g < a.createdAt := by
        rcases hcase with h | h
        · exact absurd h hneg
        · exact h
      rw [List.filter_cons_of_pos]
      · rfl
      · simpa using hlt

/-- Witness for C4 amended at a concrete state: active secret created at 95,
one previous secret created at 50, rotation at instant 100 with grace period
10, generated bytes `[3]` whose identifier matches nothing in the set. -/
theorem C4_witness :
    ∃ n, rotateSecret ⟨some ⟨generateSecretId [1], [1], 95, true⟩,
          [⟨generateSecretId [2], [2], 50, false⟩]⟩ 10 100 (.ok [3]) (.ok ()) =
        (.ok n, ⟨some n,
          cleanupOldSecrets 10 100
            ({ (⟨generateSecretId [1], [1], 95, true⟩ : Secret) with active := false } ::
              [⟨generateSecretId [2], [2], 50, false⟩])⟩) ∧
      n.active = true ∧
      n.id = generateSecretId [3] ∧
      (∀ s ∈ (rotateSecret ⟨some ⟨generateSecretId [1], [1], 95, true⟩,
          [⟨generateSecretId [2], [2], 50, false⟩]⟩ 10 100
            (.ok [3]) (.ok ())).2.previousSecrets, s.active = false) ∧
      (∀ s ∈ (rotateSecret ⟨some ⟨generateSecretId [1], [1], 95, true⟩,
          [⟨generateSecretId [2], [2], 50, false⟩]⟩ 10 100
            (.ok [3]) (.ok ())).2.previousSecrets, n.id ≠ s.id) ∧
      (((10:Int) ≤ 0 ∨ (100:Int) - 10 < 95) →
        (rotateSecret ⟨some ⟨generateSecretId [1], [1], 95, true⟩,
          [⟨generateSecretId [2], [2], 50, false⟩]⟩ 10 100
            (.ok [3]) (.ok ())).2.previousSecrets.head? =
          some { (⟨generateSecretId [1], [1], 95, true⟩ : Secret) with active := false }) :=
  C4_amended_rotation_postcondition
    ⟨some ⟨generateSecretId [1], [1], 95, true⟩, [⟨generateSecretId [2], [2], 50, false⟩]⟩
    ⟨generateSecretId [1], [1], 95, true⟩ 10 100 [3] rfl (by decide) (by decide)

/-- C5: whenever the engine has an active secret, signing a claim set and
immediately validating the produced token succeeds and yields back the
original claims. -/
theorem C5_sign_validate_roundtrip (st : ManagerState) (a : Secret) (claims : String)
    (hactive : st.activeSecret = some a) :
    ∃ td, signToken st claims = .ok td ∧
      validateToken st (.token td) = .ok td ∧
      td.claims = claims := by
  refine ⟨⟨.HS256, some a.id, claims,
    hmacSHA256 a.value (encodeSigningInput .HS256 (some a.id) claims)⟩, ?_, ?_, rfl⟩
  · simp [signToken, hactive]
  · simp [validateToken, Alg.isHMAC, findSecretByKid, getSecrets, hactive, List.find?]

/-- Witness for C5 at a concrete one-secret state. -/
theorem C5_witness :
    ∃ td, signToken ⟨some ⟨"k1", [5], 0, true⟩, []⟩ "payload" = .ok td ∧
      validateToken ⟨some ⟨"k1", [5], 0, true⟩, []⟩ (.token td) = .ok td ∧
      td.claims = "payload" :=
  C5_sign_validate_roundtrip ⟨some ⟨"k1", [5], 0, true⟩, []⟩ ⟨"k1", [5], 0, true⟩
    "payload" rfl

/-- C6: a token declaring a non-HMAC algorithm is rejected with the
unexpected-signing-method error, and the outcome is independent of the working
set — no secret is consulted (the same result is produced for every engine
state). -/
theorem C6_non_hmac_rejected_without_lookup (st st2 : ManagerState) (t : TokenData)
    (halg : t.alg.isHMAC = false) :
    validateToken st (.token t) = .error (.unsupportedAlgorithm t.alg) ∧
    validateToken st (.token t) = validateToken st2 (.token t) := by
  constructor <;> simp [validateToken, halg]

/-- Witness for C6 at a concrete RS256 token, compared across two different
working sets. -/
theorem C6_witness :
    validateToken ⟨none, []⟩ (.token ⟨.RS256, some "k", "c", []⟩) =
      .error (.unsupportedAlgorithm .RS256) ∧
    validateToken ⟨none, []⟩ (.token ⟨.RS256, some "k", "c", []⟩) =
      validateToken ⟨some ⟨"k", [5], 0, true⟩, []⟩ (.token ⟨.RS256, some "k", "c", []⟩) :=
  C6_non_hmac_rejected_without_lookup ⟨none, []⟩ ⟨some ⟨"k", [5], 0, true⟩, []⟩
    ⟨.RS256, some "k", "c", []⟩ rfl

/-- C7 counterexample: a well-formed HMAC token whose header lacks a `kid` does
NOT fail with the malformed-token error; the failed type assertion leaves the
kid as the empty string and the keyfunc falls through to the same kid-not-found
error used for an unmatched kid. -/
theorem C7_counterexample :
    validateToken ⟨some ⟨"k1", [5], 0, true⟩, []⟩ (.token ⟨.HS256, none, "payload", []⟩) =
      .error (.keyNotFound "") ∧
    ¬ (validateToken ⟨some ⟨"k1", [5], 0, true⟩, []⟩
        (.token ⟨.HS256, none, "payload", []⟩) =
      .error .malformedToken) :=
  ⟨rfl, fun h => ValidationError.noConfusion (Except.error.inj h)⟩

/-- C7 amended: a token string that is not well-formed fails with the
malformed-token error, which is distinct from the kid-not-found error; a
well-formed HMAC token whose header lacks a `kid` fails with the kid-not-found
error carrying the empty string as kid (not with the malformed-token error);
and a present kid that matches no secret in the working-set snapshot fails with
the kid-not-found error carrying that kid. -/
theorem C7_amended_error_separation (st : ManagerState) (t : TokenData) (k : String)
    (hh : t.alg.isHMAC = true) :
    validateToken st .malformed = .error .malformedToken ∧
    (t.kid = none → validateToken st (.token t) = .error (.keyNotFound "")) ∧
    (t.kid = some k → findSecretByKid (getSecrets st) k = none →
      validateToken st (.token t) = .error (.keyNotFound k)) ∧
    (∀ k2 : String, ValidationError.malformedToken ≠ .keyNotFound k2) := by
  refine ⟨rfl, ?_, ?_, ?_⟩
  · intro hk
    simp [validateToken, hh, hk]
  · intro hk hfind
    simp [validateToken, hh, hk, hfind]
  · intro k2 h
    exact ValidationError.noConfusion h

/-- Witness for C7 amended at a concrete state and token whose kid matches no
secret. -/
theorem C7_witness :
    validateToken ⟨some ⟨"k1", [5], 0, true⟩, []⟩ .malformed = .error .malformedToken ∧
    ((⟨.HS256, some "zz", "p", []⟩ : TokenData).kid = none →
      validateToken ⟨some ⟨"k1", [5], 0, true⟩, []⟩
        (.token ⟨.HS256, some "zz", "p", []⟩) = .error (.keyNotFound "")) ∧
    ((⟨.HS256, some "zz", "p", []⟩ : TokenData).kid = some "zz" →
      findSecretByKid (getSecrets ⟨some ⟨"k1", [5], 0, true⟩, []⟩) "zz" = none →
      validateToken ⟨some ⟨"k1", [5], 0, true⟩, []⟩
        (.token ⟨.HS256, some "zz", "p", []⟩) = .error (.keyNotFound "zz")) ∧
    (∀ k2 : String, ValidationError.malformedToken ≠ .keyNotFound k2) :=
  C7_amended_error_separation ⟨some ⟨"k1", [5], 0, true⟩, []⟩
    ⟨.HS256, some "zz", "p", []⟩ "zz" rfl

/-- C8: `SignToken` fails with the no-active-secret error exactly when the
engine has no active secret; on success the token's header carries the active
secret's identifier as kid and the signature is the symmetric MAC, under the
active secret's value, of the signing input — and the signing algorithm HS256
is an HMAC scheme. -/
theorem C8_sign_iff_active (st : ManagerState) (claims : String) :
    (signToken st claims = .error .noActiveSecret ↔ st.activeSecret = none) ∧
    (∀ a, st.activeSecret = some a →
      signToken st claims =
        .ok ⟨.HS256, some a.id, claims,
          hmacSHA256 a.value (encodeSigningInput .HS256 (some a.id) claims)⟩) ∧
    Alg.isHMAC .HS256 = true := by
  rcases h2 : st.activeSecret with _ | b
  · refine ⟨?_, ?_, rfl⟩
    · simp [signToken, h2]
    · intro a h
      exact Option.noConfusion h
  · refine ⟨?_, ?_, rfl⟩
    · simp [signToken, h2]
    · intro a h
      cases Option.some.inj h
      simp [signToken, h2]

/-- Witness for C8: the failing direction on the empty working set and the
success shape on a concrete one-secret state. -/
theorem C8_witness :
    signToken ⟨none, []⟩ "c" = .error .noActiveSecret ∧
    signToken ⟨some ⟨"k1", [5], 0, true⟩, []⟩ "c" =
      .ok ⟨.HS256, some "k1", "c",
        hmacSHA256 [5] (encodeSigningInput .HS256 (some "k1") "c")⟩ :=
  ⟨(C8_sign_iff_active ⟨none, []⟩ "c").1.mpr rfl,
   (C8_sign_iff_active ⟨some ⟨"k1", [5], 0, true⟩, []⟩ "c").2.1
     ⟨"k1", [5], 0, true⟩ rfl⟩

/-- C9: the secret identifier function is deterministic — it is a pure function
of the raw secret bytes, so two runs on the same bytes produce the same
identifier, and two secrets with equal values receive equal identifiers. -/
theorem C9_identifier_deterministic (v w : Bytes) (hvw : v = w) (s t : Secret)
    (hst : s.value = t.value) :
    generateSecretId v = generateSecretId w ∧
    generateSecretId s.value = generateSecretId t.value := by
  rw [hvw, hst]
  exact ⟨rfl, rfl⟩

/-- Witness for C9 on concrete byte strings and two distinct secrets sharing a
value. -/
theorem C9_witness :
    generateSecretId [1] = generateSecretId [1] ∧
    generateSecretId (⟨"a", [2], 0, true⟩ : Secret).value =
      generateSecretId (⟨"b", [2], 5, false⟩ : Secret).value :=
  C9_identifier_deterministic [1] [1] rfl ⟨"a", [2], 0, true⟩ ⟨"b", [2], 5, false⟩ rfl

lemma contains_getD_hexTable (m : Nat) (h : m < 16) :
    hexTable.contains (hexTable.getD m '0') = true := by
  interval_cases m <;> decide

lemma hexDigit_mem_hexTable (n : Nat) : hexTable.contains (hexDigit n) = true :=
  contains_getD_hexTable (n % 16) (Nat.mod_lt _ (by norm_num))

lemma hexChars_subset_hexTable (bs : Bytes) :
    ∀ c ∈ hexChars bs, hexTable.contains c = true := by
  induction bs with
  | nil => intro c hc; simp [hexChars] at hc
  | cons b t ih =>
    intro c hc
    rw [show hexChars (b :: t) = hexDigit (b / 16) :: hexDigit b :: hexChars t
      from rfl] at hc
    rcases List.mem_cons.mp hc with h | h
    · rw [h]; exact hexDigit_mem_hexTable _
    rcases List.mem_cons.mp h with h2 | h2
    · rw [h2]; exact hexDigit_mem_hexTable _
    · exact ih c h2

/-- C10: `ExportActiveSecretHex` returns the empty string when the engine has
no active secret, and otherwise returns exactly the hex encoding of the active
secret's value, every character of which is drawn from the lowercase hex
alphabet.  The operation is a pure read of the working set (it is a function of
the state and returns only the string). -/
theorem C10_export_active_hex (st : ManagerState) :
    (st.activeSecret = none → exportActiveSecretHex st = "") ∧
    (∀ a, st.activeSecret = some a →
      exportActiveSecretHex st = hexEncodeBytes a.value ∧
      ∀ c ∈ (hexEncodeBytes a.value).data, hexTable.contains c = true) := by
  constructor
  · intro h
    simp [exportActiveSecretHex, h]
  · intro a h
    refine ⟨by simp [exportActiveSecretHex, h], ?_⟩
    intro c hc
    rw [show (hexEncodeBytes a.value).data = hexChars a.value from rfl] at hc
    exact hexChars_subset_hexTable _ c hc

/-- Witness for C10 on the empty working set and on a concrete one-secret
state. -/
theorem C10_witness :
    exportActiveSecretHex ⟨none, []⟩ = "" ∧
    exportActiveSecretHex ⟨some ⟨"k1", [5, 171], 0, true⟩, []⟩ =
      hexEncodeBytes [5, 171] :=
  ⟨(C10_export_active_hex ⟨none, []⟩).1 rfl,
   ((C10_export_active_hex ⟨some ⟨"k1", [5, 171], 0, true⟩, []⟩).2
     ⟨"k1", [5, 171], 0, true⟩ rfl).1⟩

end Locksmith
